import Mathlib

set_option maxHeartbeats 1000000

/-!
Shallow embedding of the two core concurrency primitives of the repository:
the generic resource pool of src/src/resource/resource_handle.h
(namespace resource_pool: ResourcePool<T>, ResourceHandle<T>) and the
worker pool of src/src/worker/WorkerPool.h (namespace worker: WorkerPool).

Resources and tasks are identified by natural numbers.  size_t counters are
modelled as Nat values reduced modulo 2^64 at every increment or decrement,
so that the unsigned wrap-around of the C++ code is visible.  Fallible user
callbacks (factory, validator) are modelled by explicit outcome types.
Sequential methods are modelled as state-passing functions; the
multi-threaded worker pool is modelled as a labelled transition system whose
atomic steps are the code's critical sections and atomic operations.
-/

namespace resource_pool

/-- Modulus of the C++ size_t type (64-bit builds). -/
def sizeMod : Nat := 2 ^ 64

/-- Increment of a size_t counter (++x). -/
def incSize (n : Nat) : Nat := (n + 1) % sizeMod

/-- Decrement of a size_t counter (--x); wraps to 2^64 - 1 on underflow. -/
def decSize (n : Nat) : Nat := (n + (sizeMod - 1)) % sizeMod

/-- Outcome of one call of the user validator: it returns a Bool or throws. -/
inductive Vres where
  | ok (b : Bool)
  | exn
deriving DecidableEq, Repr

/-- Outcome of one call of the user factory: a resource, null, or a throw. -/
inductive Fres where
  | ok (r : Nat)
  | null
  | exn
deriving DecidableEq, Repr

/-- The code always wraps a validator call in try/catch and treats an
exception as invalid: `try { valid = validator_(*r); } catch (...) { valid = false; }`. -/
def vcall (vf : Nat → Vres) (r : Nat) : Bool :=
  match vf r with
  | Vres.ok b => b
  | Vres.exn => false

/-- Validator call through the optional validator_ member; `none` models a
null std::function (the branch guarded by `if (validator_)` is skipped). -/
def vcallOpt (v : Option (Nat → Vres)) (r : Nat) : Bool :=
  match v with
  | some vf => vcall vf r
  | none => true

/-- Mirror of resource_pool::PoolConfig (timeout fields omitted: the
sequential model has no other thread that could satisfy a wait, so every
wait ends in its timeout outcome). -/
structure PoolConfig where
  initial_size : Nat
  max_size : Nat
  validate_on_acquire : Bool
  validate_on_return : Bool
deriving DecidableEq, Repr

/-- Mutable state of resource_pool::ResourcePool<T>.

`available_` holds the idle resources.  Orientation: the LIST HEAD is the
C++ vector BACK, so `push_back` is list cons and `pop_back` takes the head.
`destroyed` is a ghost log of every resource whose unique_ptr was freed
(by the destroyer_ path or by plain unique_ptr destruction), in order.
`notified` is a ghost count of cv_.notify_one() calls. -/
structure PoolState where
  available_ : List Nat
  total_created_ : Nat
  shutdown_ : Bool
  destroyed : List Nat
  notified : Nat
deriving DecidableEq, Repr

/-- Reportable failures of ResourcePool::acquire (all thrown as
PoolException except factoryExnErr, which rethrows the factory exception). -/
inductive AcquireError where
  | shutdownErr
  | timeoutErr
  | factoryNullErr
  | factoryExnErr
  | validatorRejectedErr
deriving DecidableEq, Repr

/-- Loop body of ResourcePool::acquire (resource_handle.h lines 233-325),
one constructor case per guarded decision.  Arguments thread the members
read and written under the mutex; `sd` is shutdown_, which no other thread
can change in this sequential model, hence is re-read unchanged at each
iteration exactly as the code re-checks it.  The validator-rejection retry
pops one idle entry per iteration, so the recursion is on `available_`.

Creation path, faithfully to the code: the slot is reserved (++total),
then on factory exception or factory null the catch-all rolls back once;
on validator rejection of the new resource the inner branch rolls back and
throws PoolException, which the catch-all catches and rolls back AGAIN, so
total_created_ is decremented twice for one reservation. -/
def acquireAux (cfg : PoolConfig) (v : Option (Nat → Vres)) (f : Fres) (sd : Bool) :
    List Nat → Nat → List Nat → Nat → (Except AcquireError Nat) × PoolState
  | avail, total, des, ntf =>
    if sd then
      (Except.error AcquireError.shutdownErr, ⟨avail, total, sd, des, ntf⟩)
    else
      match avail with
      | r :: rest =>
        if cfg.validate_on_acquire && v.isSome then
          if vcallOpt v r then
            (Except.ok r, ⟨rest, total, sd, des, ntf⟩)
          else
            acquireAux cfg v f sd rest (decSize total) (des ++ [r]) (ntf + 1)
        else
          (Except.ok r, ⟨rest, total, sd, des, ntf⟩)
      | [] =>
        if total < cfg.max_size then
          match f with
          | Fres.exn =>
            (Except.error AcquireError.factoryExnErr,
             ⟨[], decSize (incSize total), sd, des, ntf + 1⟩)
          | Fres.null =>
            (Except.error AcquireError.factoryNullErr,
             ⟨[], decSize (incSize total), sd, des, ntf + 1⟩)
          | Fres.ok r =>
            match v with
            | some vf =>
              if vcall vf r then
                (Except.ok r, ⟨[], incSize total, sd, des, ntf⟩)
              else
                (Except.error AcquireError.validatorRejectedErr,
                 ⟨[], decSize (decSize (incSize total)), sd, des ++ [r], ntf + 2⟩)
            | none =>
              (Except.ok r, ⟨[], incSize total, sd, des, ntf⟩)
        else
          (Except.error AcquireError.timeoutErr, ⟨[], total, sd, des, ntf⟩)

/-- ResourcePool::acquire on a pool state.  The factory outcome `f` is the
behaviour of the single factory call the creation path can make; a
successful result is the id of the leased resource. -/
def acquire (cfg : PoolConfig) (v : Option (Nat → Vres)) (f : Fres)
    (s : PoolState) : (Except AcquireError Nat) × PoolState :=
  acquireAux cfg v f s.shutdown_ s.available_ s.total_created_ s.destroyed s.notified

/-- ResourcePool::tryAcquire (resource_handle.h lines 332-412).  On
validator rejection of the popped idle entry it rolls back and returns an
empty optional at once; there is no retry loop.  On the creation path all
three failure modes roll back the reservation once and return an empty
optional. -/
def tryAcquire (cfg : PoolConfig) (v : Option (Nat → Vres)) (f : Fres)
    (s : PoolState) : Option Nat × PoolState :=
  if s.shutdown_ then
    (none, s)
  else
    match s.available_ with
    | r :: rest =>
      if cfg.validate_on_acquire && v.isSome then
        if vcallOpt v r then
          (some r, { s with available_ := rest })
        else
          (none, { s with available_ := rest,
                          total_created_ := decSize s.total_created_,
                          destroyed := s.destroyed ++ [r],
                          notified := s.notified + 1 })
      else
        (some r, { s with available_ := rest })
    | [] =>
      if s.total_created_ < cfg.max_size then
        match f with
        | Fres.exn =>
          (none, { s with total_created_ := decSize (incSize s.total_created_),
                          notified := s.notified + 1 })
        | Fres.null =>
          (none, { s with total_created_ := decSize (incSize s.total_created_),
                          notified := s.notified + 1 })
        | Fres.ok r =>
          match v with
          | some vf =>
            if vcall vf r then
              (some r, { s with total_created_ := incSize s.total_created_ })
            else
              (none, { s with total_created_ := decSize (incSize s.total_created_),
                              destroyed := s.destroyed ++ [r],
                              notified := s.notified + 1 })
          | none =>
            (some r, { s with total_created_ := incSize s.total_created_ })
      else
        (none, s)

/-- ResourcePool::returnResource (resource_handle.h lines 552-601): the
return-path validation runs outside the mutex; under shutdown or on an
invalid resource the counter is decremented and the resource destroyed,
otherwise the resource is pushed to the back of available_ (list head
here); cv_.notify_one() fires in every branch. -/
def returnResource (cfg : PoolConfig) (v : Option (Nat → Vres))
    (s : PoolState) (r : Nat) : PoolState :=
  let valid := if cfg.validate_on_return && v.isSome then vcallOpt v r else true
  if s.shutdown_ then
    { s with total_created_ := decSize s.total_created_,
             destroyed := s.destroyed ++ [r],
             notified := s.notified + 1 }
  else if !valid then
    { s with total_created_ := decSize s.total_created_,
             destroyed := s.destroyed ++ [r],
             notified := s.notified + 1 }
  else
    { s with available_ := r :: s.available_,
             notified := s.notified + 1 }

/-- ResourcePool::shutdown (resource_handle.h lines 441-478): idempotent;
sets shutdown_, moves every idle resource out for destruction (front to
back of the vector, i.e. reversed list order here) and leaves
total_created_ untouched. -/
def shutdownPool (s : PoolState) : PoolState :=
  if s.shutdown_ then s
  else
    { s with shutdown_ := true,
             available_ := [],
             destroyed := s.destroyed ++ s.available_.reverse }

/-- ResourcePool::shutdownAndWait (resource_handle.h lines 489-522) in the
sequential model: if already shut down it only reports whether everything
is idle; otherwise it sets shutdown_, evaluates the wait predicate
`available_.size() == total_created_` (no other thread can change it before
the deadline), destroys the idle resources and reports the predicate.
total_created_ is not changed. -/
def shutdownAndWait (s : PoolState) : Bool × PoolState :=
  if s.shutdown_ then
    (s.available_.length == s.total_created_, s)
  else
    (s.available_.length == s.total_created_,
     { s with shutdown_ := true,
              available_ := [],
              destroyed := s.destroyed ++ s.available_.reverse })

/-- ResourcePool::forceShutdown (resource_handle.h lines 529-545): sets
shutdown_, destroys every idle resource from the vector front, and sets
total_created_ to 0 unconditionally, leases outstanding or not.  (As
written the code pops with available_.pop(), a member std::vector does not
have; the model follows the evident front-to-back intent of the loop.) -/
def forceShutdown (s : PoolState) : PoolState :=
  { s with shutdown_ := true,
           available_ := [],
           destroyed := s.destroyed ++ s.available_.reverse,
           total_created_ := 0 }

/-- World state for sequences of pool operations: the pool plus the
multiset of currently lent resources (owned by live ResourceHandles). -/
structure World where
  pool : PoolState
  lent : List Nat
deriving DecidableEq, Repr

/-- One caller-visible pool operation.  Acquire operations carry the
outcome of the factory call they may make; releaseOp i returns the i-th
outstanding lease (no-op if the index is out of range, since a caller can
only release a handle that exists). -/
inductive PoolOp where
  | acquireOp (f : Fres)
  | tryAcquireOp (f : Fres)
  | releaseOp (i : Nat)
  | shutdownOp
  | shutdownAndWaitOp
  | forceShutdownOp
deriving DecidableEq, Repr

/-- Interpreter of one operation on the world. -/
def runOp (cfg : PoolConfig) (v : Option (Nat → Vres)) (w : World) :
    PoolOp → World
  | PoolOp.acquireOp f =>
    match acquire cfg v f w.pool with
    | (Except.ok r, s1) => ⟨s1, r :: w.lent⟩
    | (Except.error _, s1) => ⟨s1, w.lent⟩
  | PoolOp.tryAcquireOp f =>
    match tryAcquire cfg v f w.pool with
    | (some r, s1) => ⟨s1, r :: w.lent⟩
    | (none, s1) => ⟨s1, w.lent⟩
  | PoolOp.releaseOp i =>
    match w.lent.get? i with
    | some r => ⟨returnResource cfg v w.pool r, w.lent.eraseIdx i⟩
    | none => w
  | PoolOp.shutdownOp => ⟨shutdownPool w.pool, w.lent⟩
  | PoolOp.shutdownAndWaitOp => ⟨(shutdownAndWait w.pool).2, w.lent⟩
  | PoolOp.forceShutdownOp => ⟨forceShutdown w.pool, w.lent⟩

/-- Interpreter of a sequence of operations. -/
def runOps (cfg : PoolConfig) (v : Option (Nat → Vres)) (w : World)
    (ops : List PoolOp) : World :=
  ops.foldl (runOp cfg v) w

/-- Fresh pool as left by the constructor after prefilling `ids` (in
creation order: first created at the vector front, i.e. list end). -/
def initPool (ids : List Nat) : PoolState :=
  ⟨ids.reverse, ids.length, false, [], 0⟩

/-- Exception thrown by ResourceHandle accessors on a null resource
(resource_handle.h lines 78-90); the constructor tags the message. -/
inductive PoolException where
  | accessNull
  | derefNull
deriving DecidableEq, Repr

/-- Mirror of resource_pool::ResourceHandle<T>: `resource_` is the owned
unique_ptr (none = null) and `return_func_` records whether the return
std::function is non-null.  The id held by a non-null pointer is the
resource id. -/
structure ResourceHandle where
  resource_ : Option Nat
  return_func_ : Bool
deriving DecidableEq, Repr

/-- Default-constructed handle: null resource, null return function. -/
def ResourceHandle.mkDefault : ResourceHandle := ⟨none, false⟩

/-- ResourceHandle::release (lines 109-114): if both the resource and the
return function are present, the resource is moved into return_func_
(one enqueue back to the pool, counted by the second component) and
return_func_ is cleared; otherwise nothing happens. -/
def ResourceHandle.release (h : ResourceHandle) : ResourceHandle × Nat :=
  if h.resource_.isSome && h.return_func_ then
    (⟨none, false⟩, 1)
  else
    (h, 0)

/-- ResourceHandle::~ResourceHandle (lines 71-73) just calls release(). -/
def ResourceHandle.destruct (h : ResourceHandle) : ResourceHandle × Nat :=
  h.release

/-- ResourceHandle move constructor (lines 54-59): the new handle steals
resource_ and return_func_; the moved-from handle is left with a null
resource (moved-from unique_ptr) and an explicitly nulled return_func_.
Result: (new handle, moved-from handle); nothing is returned to the pool. -/
def ResourceHandle.moveCtor (other : ResourceHandle) :
    ResourceHandle × ResourceHandle :=
  (⟨other.resource_, other.return_func_⟩, ⟨none, false⟩)

/-- ResourceHandle move assignment (lines 61-69) for distinct handles:
the target first release()s its own resource (possibly one enqueue back to
the pool), then steals from `other` as the move constructor does.
Result: (new target, moved-from other, enqueues emitted). -/
def ResourceHandle.moveAssign (target other : ResourceHandle) :
    ResourceHandle × ResourceHandle × Nat :=
  let p := target.release
  (⟨other.resource_, other.return_func_⟩, ⟨none, false⟩, p.2)

/-- ResourceHandle::operator-> (lines 78-83): throws PoolException on a
null resource, otherwise yields the pointee. -/
def ResourceHandle.arrowOp (h : ResourceHandle) : Except PoolException Nat :=
  match h.resource_ with
  | none => Except.error PoolException.accessNull
  | some r => Except.ok r

/-- ResourceHandle::operator* (lines 85-90): throws PoolException on a
null resource, otherwise yields the pointee. -/
def ResourceHandle.starOp (h : ResourceHandle) : Except PoolException Nat :=
  match h.resource_ with
  | none => Except.error PoolException.derefNull
  | some r => Except.ok r

/-- ResourceHandle::operator bool (lines 95-97). -/
def ResourceHandle.toBool (h : ResourceHandle) : Bool :=
  h.resource_.isSome

/-- ResourceHandle::get (lines 102-104): the raw pointer, null allowed. -/
def ResourceHandle.get (h : ResourceHandle) : Option Nat :=
  h.resource_

/-- One operation applied to the handle currently carrying a given leased
resource: a manual release() call, destruction, a move to a fresh handle
(construction or assignment-from: the lineage continues in the thief), or
being overwritten as the target of a move assignment (the lineage's own
resource is release()d first and the handle then carries a different
resource, so the lineage ends). -/
inductive HOp where
  | releaseOp
  | dtorOp
  | moveOutOp
  | assignedOverOp
deriving DecidableEq, Repr

/-- Effect of one lineage operation: next carrier of the lease and the
number of enqueues back to the pool this operation performed. -/
def hstep (h : ResourceHandle) : HOp → ResourceHandle × Nat
  | HOp.releaseOp => h.release
  | HOp.dtorOp => h.destruct
  | HOp.moveOutOp => ((ResourceHandle.moveCtor h).1, 0)
  | HOp.assignedOverOp => (⟨none, false⟩, (h.release).2)

/-- Total number of times the lease is enqueued back to the pool over a
sequence of operations on its carrying handle. -/
def returnsDuring (h : ResourceHandle) : List HOp → Nat
  | [] => 0
  | op :: ops =>
    (hstep h op).2 + returnsDuring (hstep h op).1 ops

end resource_pool

namespace worker

/-- Mirror of worker::WorkerPool::Options (WorkerPool.h lines 34-50).
thread_count defaults to hardware_concurrency which is environment
dependent, so no default is modelled; parallelism 0 means thread_count,
max_queue 0 means unbounded. -/
structure Options where
  thread_count : Nat
  parallelism : Nat
  max_queue : Nat
  drain_on_shutdown : Bool
deriving DecidableEq, Repr

/-- WorkerPool::normalize (WorkerPool.h lines 207-212), statement by
statement. -/
def normalize (opts : Options) : Options :=
  let opts1 := if opts.thread_count = 0 then { opts with thread_count := 1 } else opts
  let opts2 := if opts1.parallelism = 0 then { opts1 with parallelism := opts1.thread_count } else opts1
  let opts3 := if opts2.parallelism = 0 then { opts2 with parallelism := 1 } else opts2
  opts3

/-- State of a WorkerPool together with the ghost bookkeeping needed to
trace every task.  Tasks are ids; a task id occupies exactly one in-flight
phase list at a time, the phase lists splitting the worker loop at its
atomic operations (WorkerPool.h lines 271-321):

  queue_         enqueued, not yet popped (front = list head)
  waiting        popped, before permits_.acquire()
  preActive      permit held, before active_.fetch_add
  execing        between fetch_add and the end of task() (task running)
  ranPendingDec  task() returned or threw, before active_.fetch_sub
  pendingRel     counter decremented, before permits_.release()
  retired        permit released, worker moved on

Ghost logs: accepted (ids accepted by try_post/post/submit in order),
dequeued (pop order), completed (order in which task() invocations
finished), dropped (tasks discarded by queue_.clear() in
shutdown(drain=false)).  permits is the counting_semaphore value, active_
the active_ atomic, is_stopping_ / drain_on_shutdown_ the flags. -/
structure WPState where
  queue_ : List Nat
  waiting : List Nat
  preActive : List Nat
  execing : List Nat
  ranPendingDec : List Nat
  pendingRel : List Nat
  retired : List Nat
  accepted : List Nat
  dequeued : List Nat
  completed : List Nat
  dropped : List Nat
  permits : Nat
  active_ : Nat
  is_stopping_ : Bool
  drain_on_shutdown_ : Bool
deriving DecidableEq, Repr

/-- Pool state right after the constructor: empty queue, semaphore holding
`parallelism` permits, nothing active, not stopping. -/
def initWP (opts : Options) : WPState :=
  ⟨[], [], [], [], [], [], [], [], [], [], [], opts.parallelism, 0, false,
   opts.drain_on_shutdown⟩

/-- Atomic steps of the WorkerPool, one per critical section or atomic
operation of WorkerPool.h.

enqueue: the push_back in try_enqueue / enqueue_blocking (lines 221-244),
performed under the mutex only when is_stopping_ is false and, for a
bounded queue, only when size < max_queue; a freshly constructed Task
object is pushed, hence the id is new.

dequeue: the pop_front of worker_loop (lines 293-298), under the mutex,
enabled whenever the queue is non-empty.

acquirePermit / incActive / finishTask / decActive / releasePermit: lines
304-313, in program order per task; permits_.acquire() needs a positive
semaphore count; task() is invoked exactly once between fetch_add and
fetch_sub, exceptions swallowed.

shutdownStep: shutdown(drain) (lines 166-193); the compare_exchange lets
only the first caller through; under the mutex it records the policy and,
when drain is false, clears the queue (those tasks are dropped). -/
inductive WPStep (opts : Options) : WPState → WPState → Prop
  | enqueue (s : WPState) (t : Nat)
      (h1 : s.is_stopping_ = false)
      (h2 : t ∉ s.accepted)
      (h3 : opts.max_queue = 0 ∨ s.queue_.length < opts.max_queue) :
      WPStep opts s { s with queue_ := s.queue_ ++ [t],
                             accepted := s.accepted ++ [t] }
  | dequeue (s : WPState) (t : Nat) (rest : List Nat)
      (h : s.queue_ = t :: rest) :
      WPStep opts s { s with queue_ := rest,
                             waiting := s.waiting ++ [t],
                             dequeued := s.dequeued ++ [t] }
  | acquirePermit (s : WPState) (t : Nat)
      (h1 : t ∈ s.waiting)
      (h2 : 0 < s.permits) :
      WPStep opts s { s with permits := s.permits - 1,
                             waiting := s.waiting.erase t,
                             preActive := s.preActive ++ [t] }
  | incActive (s : WPState) (t : Nat)
      (h : t ∈ s.preActive) :
      WPStep opts s { s with active_ := s.active_ + 1,
                             preActive := s.preActive.erase t,
                             execing := s.execing ++ [t] }
  | finishTask (s : WPState) (t : Nat)
      (h : t ∈ s.execing) :
      WPStep opts s { s with execing := s.execing.erase t,
                             ranPendingDec := s.ranPendingDec ++ [t],
                             completed := s.completed ++ [t] }
  | decActive (s : WPState) (t : Nat)
      (h : t ∈ s.ranPendingDec) :
      WPStep opts s { s with active_ := s.active_ - 1,
                             ranPendingDec := s.ranPendingDec.erase t,
                             pendingRel := s.pendingRel ++ [t] }
  | releasePermit (s : WPState) (t : Nat)
      (h : t ∈ s.pendingRel) :
      WPStep opts s { s with permits := s.permits + 1,
                             pendingRel := s.pendingRel.erase t,
                             retired := s.retired ++ [t] }
  | shutdownStep (s : WPState) (drain : Bool)
      (h : s.is_stopping_ = false) :
      WPStep opts s { s with is_stopping_ := true,
                             drain_on_shutdown_ := drain,
                             queue_ := if drain then s.queue_ else [],
                             dropped := if drain then s.dropped
                                        else s.dropped ++ s.queue_ }

/-- States reachable from the freshly constructed pool. -/
inductive WPReach (opts : Options) : WPState → Prop
  | init : WPReach opts (initWP opts)
  | step {s s' : WPState} : WPReach opts s → WPStep opts s s' → WPReach opts s'

/-- Inductive invariant of the WorkerPool transition system. -/
structure WPInv (opts : Options) (s : WPState) : Prop where
  acc_eq : s.accepted = s.dequeued ++ s.queue_ ++ s.dropped
  acc_nodup : s.accepted.Nodup
  deq_cnt : ∀ x : Nat, s.dequeued.count x =
    s.waiting.count x + s.preActive.count x + s.execing.count x +
    s.completed.count x
  comp_cnt : ∀ x : Nat, s.completed.count x =
    s.ranPendingDec.count x + s.pendingRel.count x + s.retired.count x
  active_eq : s.active_ = s.execing.length + s.ranPendingDec.length
  permits_eq : s.permits + s.preActive.length + s.execing.length +
    s.ranPendingDec.length + s.pendingRel.length = opts.parallelism
  drop_stop : s.dropped ≠ [] →
    s.is_stopping_ = true ∧ s.drain_on_shutdown_ = false

end worker

namespace resource_pool

/-- Validator accepting exactly resource 1 (rejects resource 2). -/
def vC2 : Option (Nat → Vres) := some (fun r => Vres.ok (decide (r = 1)))

/-- Config with two resources and acquire-time validation. -/
def cfgC2 : PoolConfig := ⟨2, 2, true, true⟩

/-- Pool whose idle sequence holds 1 then 2, 2 most recent (list head =
vector back), both counted in total_created_. -/
def sC2 : PoolState := ⟨[2, 1], 2, false, [], 0⟩

/-- Config for the forceShutdown trace: nothing prefilled, max_size 1,
no validation. -/
def cfgC3 : PoolConfig := ⟨0, 1, false, false⟩

/-- Operation sequence: acquire (factory creates resource 1), then
forceShutdown while the lease is outstanding, then release the lease. -/
def opsC3 : List PoolOp :=
  [PoolOp.acquireOp (Fres.ok 1), PoolOp.forceShutdownOp, PoolOp.releaseOp 0]

/-- Config for the acquire creation-path failure: empty pool, max_size 1,
validation on acquire. -/
def cfgC4 : PoolConfig := ⟨0, 1, true, true⟩

/-- Validator rejecting every resource. -/
def vC4 : Option (Nat → Vres) := some (fun _ => Vres.ok false)

/-- Empty pool state prior to the failing acquire. -/
def sC4 : PoolState := ⟨[], 0, false, [], 0⟩

/-- Config of the LIFO scenario: five resources, validation flags on but
no validator configured (as in the repository's LIFO test). -/
def cfgC8 : PoolConfig := ⟨5, 5, true, true⟩

/-- Pool state after serially returning resources 1,2,3,4,5 (in that
order) to a pool of five lent resources: each return pushes to the vector
back (list head), so 5 is the most recently returned. -/
def sC8 : PoolState :=
  List.foldl (fun s r => returnResource cfgC8 none s r) ⟨[], 5, false, [], 0⟩
    [1, 2, 3, 4, 5]

end resource_pool

namespace worker

/-- Concrete options: 2 threads, parallelism 1, unbounded queue. -/
def opts0 : Options := ⟨2, 1, 0, true⟩

/-- Concrete reachable state: tasks 10 and 11 were accepted, 10 was
dequeued, ran and finished (still before active_.fetch_sub), 11 was
dropped by shutdown(drain = false). -/
def sW : WPState :=
  ⟨[], [], [], [], [10], [], [], [10, 11], [10], [10], [11], 0, 1, true, false⟩

end worker

/-! Theorems. -/

namespace resource_pool

/-- ResourceHandle lineage bound: over any operation sequence, a handle
returns its resource at most once if it currently owns a resource and a
return function, and never otherwise. -/
theorem returnsDuring_le_alive (ops : List HOp) :
    ∀ h : ResourceHandle,
      returnsDuring h ops ≤ if h.resource_.isSome && h.return_func_ then 1 else 0 := by
  induction ops with
  | nil =>
    intro h
    simp [returnsDuring]
  | cons op ops ih =>
    intro h
    by_cases hg : (h.resource_.isSome && h.return_func_) = true
    · cases op
      · have hs : hstep h HOp.releaseOp = (⟨none, false⟩, 1) := by
          simp [hstep, ResourceHandle.release, hg]
        have := ih (⟨none, false⟩ : ResourceHandle)
        simp only [returnsDuring, hs, hg] at *
        simpa using this
      · have hs : hstep h HOp.dtorOp = (⟨none, false⟩, 1) := by
          simp [hstep, ResourceHandle.destruct, ResourceHandle.release, hg]
        have := ih (⟨none, false⟩ : ResourceHandle)
        simp only [returnsDuring, hs, hg] at *
        simpa using this
      · have hs : hstep h HOp.moveOutOp = (⟨h.resource_, h.return_func_⟩, 0) := by
          simp [hstep, ResourceHandle.moveCtor]
        have := ih (⟨h.resource_, h.return_func_⟩ : ResourceHandle)
        simp only [returnsDuring, hs, hg] at *
        simpa [hg] using this
      · have hs : hstep h HOp.assignedOverOp = (⟨none, false⟩, 1) := by
          simp [hstep, ResourceHandle.release, hg]
        have := ih (⟨none, false⟩ : ResourceHandle)
        simp only [returnsDuring, hs, hg] at *
        simpa using this
    · have hg2 : (h.resource_.isSome && h.return_func_) = false := by
        simpa using hg
      cases op
      · have hs : hstep h HOp.releaseOp = (h, 0) := by
          simp [hstep, ResourceHandle.release, hg2]
        have := ih h
        simp only [returnsDuring, hs, hg2] at *
        simpa using this
      · have hs : hstep h HOp.dtorOp = (h, 0) := by
          simp [hstep, ResourceHandle.destruct, ResourceHandle.release, hg2]
        have := ih h
        simp only [returnsDuring, hs, hg2] at *
        simpa using this
      · have hs : hstep h HOp.moveOutOp = (⟨h.resource_, h.return_func_⟩, 0) := by
          simp [hstep, ResourceHandle.moveCtor]
        have := ih (⟨h.resource_, h.return_func_⟩ : ResourceHandle)
        simp only [returnsDuring, hs, hg2] at *
        simpa [hg2] using this
      · have hs : hstep h HOp.assignedOverOp = (⟨none, false⟩, 0) := by
          simp [hstep, ResourceHandle.release, hg2]
        have := ih (⟨none, false⟩ : ResourceHandle)
        simp only [returnsDuring, hs, hg2] at *
        simpa using this

/-- C7: for every ResourceHandle and every sequence of manual release()
calls, move constructions/assignments, and destructions applied to the
handle carrying a leased resource, the resource is enqueued back to its
pool at most once: after the first successful return the return function
is cleared, so every later release or destruction is a no-op. -/
theorem C7_at_most_once_return (h : ResourceHandle) (ops : List HOp) :
    returnsDuring h ops ≤ 1 := by
  have := returnsDuring_le_alive ops h
  by_cases hg : (h.resource_.isSome && h.return_func_) = true
  · simpa [hg] using this
  · have hg2 : (h.resource_.isSome && h.return_func_) = false := by simpa using hg
    simp [hg2] at this
    omega

/-- C10: a ResourceHandle holding no resource (default-constructed,
moved-from, or already released) throws PoolException from operator-> and
operator*, while get() returns the null pointer and the bool conversion is
false; default construction, moving-from, and a successful release all
leave the resource pointer null. -/
theorem C10_null_handle_guards (h : ResourceHandle)
    (hn : h.resource_ = none) :
    h.arrowOp = Except.error PoolException.accessNull ∧
    h.starOp = Except.error PoolException.derefNull ∧
    h.get = none ∧
    h.toBool = false ∧
    ResourceHandle.mkDefault.resource_ = none ∧
    (∀ h0 : ResourceHandle, ((ResourceHandle.moveCtor h0).2).resource_ = none) ∧
    (∀ h0 : ResourceHandle, 1 ≤ (h0.release).2 → ((h0.release).1).resource_ = none) := by
  refine ⟨?_, ?_, ?_, ?_, rfl, fun h0 => rfl, fun h0 hrel => ?_⟩
  · simp [ResourceHandle.arrowOp, hn]
  · simp [ResourceHandle.starOp, hn]
  · simp [ResourceHandle.get, hn]
  · simp [ResourceHandle.toBool, hn]
  · by_cases hg : (h0.resource_.isSome && h0.return_func_) = true
    · simp [ResourceHandle.release, hg]
    · have hg2 : (h0.resource_.isSome && h0.return_func_) = false := by simpa using hg
      simp [ResourceHandle.release, hg2] at hrel

/-- Witness for C10 at the default-constructed handle. -/
theorem C10_null_handle_guards_witness :
    ResourceHandle.mkDefault.arrowOp = Except.error PoolException.accessNull ∧
    ResourceHandle.mkDefault.starOp = Except.error PoolException.derefNull ∧
    ResourceHandle.mkDefault.get = none ∧
    ResourceHandle.mkDefault.toBool = false := by
  obtain ⟨h1, h2, h3, h4, _, _, _⟩ :=
    C10_null_handle_guards ResourceHandle.mkDefault rfl
  exact ⟨h1, h2, h3, h4⟩

/-- Counterexample to C2 as stated: in pool sC2 the idle sequence holds
resources 1 and 2 (2 most recent); the validator rejects 2 and accepts 1.
The claim says tryAcquire retries from the top after destroying 2 and so
hands out the still-valid idle resource 1; the code instead returns an
empty optional, leaving the valid resource 1 idle. -/
theorem C2_counterexample :
    (tryAcquire cfgC2 vC2 Fres.exn sC2).1 = none ∧
    (tryAcquire cfgC2 vC2 Fres.exn sC2).2.available_ = [1] ∧
    vcallOpt vC2 1 = true ∧
    vcallOpt vC2 2 = false := by
  exact ⟨rfl, rfl, rfl, rfl⟩

/-- C2 (amended): when the most recent idle entry is rejected by the
validator (exceptions counting as rejection), tryAcquire destroys the
rejected resource, decrements total_created_, signals one waiter, and
returns an empty optional immediately; it does not retry with the next
idle entry and does not create a fresh resource. -/
theorem C2_tryAcquire_no_retry (cfg : PoolConfig) (v : Option (Nat → Vres))
    (f : Fres) (s : PoolState) (r : Nat) (rest : List Nat)
    (hsd : s.shutdown_ = false)
    (hav : s.available_ = r :: rest)
    (hva : cfg.validate_on_acquire = true)
    (hv : v.isSome = true)
    (hrej : vcallOpt v r = false) :
    tryAcquire cfg v f s =
      (none, { s with available_ := rest,
                      total_created_ := decSize s.total_created_,
                      destroyed := s.destroyed ++ [r],
                      notified := s.notified + 1 }) := by
  simp [tryAcquire, hsd, hav, hva, hv, hrej]

/-- Witness for the amended C2 at the concrete pool sC2. -/
theorem C2_tryAcquire_no_retry_witness :
    tryAcquire cfgC2 vC2 Fres.exn sC2 =
      (none, ⟨[1], 1, false, [2], 1⟩) := by
  have h := C2_tryAcquire_no_retry cfgC2 vC2 Fres.exn sC2 2 [1]
    rfl rfl rfl rfl rfl
  exact h

/-- C3 is violated by the code: starting from an empty pool with
max_size 1, acquire creates resource 1 (total_created_ = 1, lease
outstanding), forceShutdown destroys nothing yet sets total_created_ to 0,
and the subsequent release of the lease decrements the size_t counter from
0, wrapping to 2^64 - 1 > max_size.  Thus the invariant
|idle| ≤ total_created ≤ max_size is broken, and forceShutdown decreased
total_created_ (1 to 0) while the lent resource 1 was not destroyed. -/
theorem C3_forceShutdown_breaks_invariant :
    (runOps cfgC3 none ⟨initPool [], []⟩ opsC3).pool.total_created_ =
      sizeMod - 1 ∧
    cfgC3.max_size <
      (runOps cfgC3 none ⟨initPool [], []⟩ opsC3).pool.total_created_ ∧
    (runOps cfgC3 none ⟨initPool [], []⟩
        [PoolOp.acquireOp (Fres.ok 1), PoolOp.forceShutdownOp]).pool.total_created_ = 0 ∧
    (runOps cfgC3 none ⟨initPool [], []⟩
        [PoolOp.acquireOp (Fres.ok 1), PoolOp.forceShutdownOp]).lent = [1] ∧
    (runOps cfgC3 none ⟨initPool [], []⟩
        [PoolOp.acquireOp (Fres.ok 1), PoolOp.forceShutdownOp]).pool.destroyed = [] := by
  refine ⟨rfl, ?_, rfl, rfl, rfl⟩
  decide

/-- C4 is violated by the code on the validator-rejection mode: from the
empty pool sC4 (total_created_ = 0, max_size 1) acquire reserves a slot
(total 1), the factory returns resource 1, the validator rejects it; the
rejection branch rolls the reservation back and throws PoolException,
which the catch-all rollback catches and rolls back AGAIN, so
total_created_ ends at 2^64 - 1 instead of the prior value 0 (and two
waiters are signalled instead of one).  The factory-throw and factory-null
modes do restore the prior value, as the claim states. -/
theorem C4_creation_failure_rollback :
    (acquire cfgC4 vC4 (Fres.ok 1) sC4).1 =
      Except.error AcquireError.validatorRejectedErr ∧
    (acquire cfgC4 vC4 (Fres.ok 1) sC4).2.total_created_ = sizeMod - 1 ∧
    (acquire cfgC4 vC4 (Fres.ok 1) sC4).2.total_created_ ≠ sC4.total_created_ ∧
    (acquire cfgC4 vC4 (Fres.ok 1) sC4).2.notified = 2 ∧
    (acquire cfgC4 vC4 (Fres.ok 1) sC4).2.available_ = sC4.available_ ∧
    (acquire cfgC4 vC4 (Fres.ok 1) sC4).2.shutdown_ = sC4.shutdown_ ∧
    (acquire cfgC4 vC4 Fres.exn sC4).1 = Except.error AcquireError.factoryExnErr ∧
    (acquire cfgC4 vC4 Fres.exn sC4).2.total_created_ = sC4.total_created_ ∧
    (acquire cfgC4 vC4 Fres.exn sC4).2.notified = 1 ∧
    (acquire cfgC4 vC4 Fres.null sC4).1 = Except.error AcquireError.factoryNullErr ∧
    (acquire cfgC4 vC4 Fres.null sC4).2.total_created_ = sC4.total_created_ := by
  refine ⟨rfl, rfl, ?_, rfl, rfl, rfl, rfl, ?_, rfl, rfl, ?_⟩ <;> decide

/-- C8: the idle sequence is LIFO.  For any pool whose idle vector is
non-empty and whose popped entry passes (or skips) acquire-time
validation, acquire AND tryAcquire hand out the vector back, i.e. the
most recently returned resource; and a valid return on a live pool pushes
the resource to the vector back. -/
theorem C8_lifo (cfg : PoolConfig) (v : Option (Nat → Vres)) (f : Fres)
    (s s' : PoolState) (r r' : Nat) (rest : List Nat)
    (hsd : s.shutdown_ = false)
    (hav : s.available_ = r :: rest)
    (hok : (cfg.validate_on_acquire && v.isSome) = false ∨ vcallOpt v r = true)
    (hsd' : s'.shutdown_ = false)
    (hok' : (cfg.validate_on_return && v.isSome) = false ∨ vcallOpt v r' = true) :
    acquire cfg v f s = (Except.ok r, { s with available_ := rest }) ∧
    tryAcquire cfg v f s = (some r, { s with available_ := rest }) ∧
    returnResource cfg v s' r' =
      { s' with available_ := r' :: s'.available_,
                notified := s'.notified + 1 } := by
  refine ⟨?_, ?_, ?_⟩
  · rcases hok with hok | hok
    · simp [acquire, acquireAux, hsd, hav, hok]
    · by_cases hg : (cfg.validate_on_acquire && v.isSome) = true
      · simp [acquire, acquireAux, hsd, hav, hg, hok]
      · have hg2 : (cfg.validate_on_acquire && v.isSome) = false := by simpa using hg
        simp [acquire, acquireAux, hsd, hav, hg2]
  · rcases hok with hok | hok
    · simp [tryAcquire, hsd, hav, hok]
    · by_cases hg : (cfg.validate_on_acquire && v.isSome) = true
      · simp [tryAcquire, hsd, hav, hg, hok]
      · have hg2 : (cfg.validate_on_acquire && v.isSome) = false := by simpa using hg
        simp [tryAcquire, hsd, hav, hg2]
  · rcases hok' with hok' | hok'
    · simp [returnResource, hsd', hok']
    · by_cases hg : (cfg.validate_on_return && v.isSome) = true
      · simp [returnResource, hsd', hg, hok']
      · have hg2 : (cfg.validate_on_return && v.isSome) = false := by simpa using hg
        simp [returnResource, hsd', hg2]

/-- Witness for C8: sC8 is the pool after serially returning 1,2,3,4,5 to
an empty idle vector, so its idle list is [5,4,3,2,1] (head = vector
back); the next acquire yields 5, the most recently returned, not 1, and
so does tryAcquire; a further return of 3 pushes 3 to the back. -/
theorem C8_lifo_witness :
    acquire cfgC8 none Fres.exn sC8 =
      (Except.ok 5, { sC8 with available_ := [4, 3, 2, 1] }) ∧
    tryAcquire cfgC8 none Fres.exn sC8 =
      (some 5, { sC8 with available_ := [4, 3, 2, 1] }) ∧
    returnResource cfgC8 none { sC8 with available_ := [4, 3, 2, 1] } 3 =
      { sC8 with available_ := [3, 4, 3, 2, 1],
                 notified := sC8.notified + 1 } := by
  have h := C8_lifo cfgC8 none Fres.exn sC8
    { sC8 with available_ := [4, 3, 2, 1] } 5 3 [4, 3, 2, 1]
    rfl rfl (Or.inl rfl) rfl (Or.inl rfl)
  exact h

end resource_pool

namespace worker

/-- C9: constructing a WorkerPool with thread_count = 0 or parallelism = 0
does not fail: normalize maps thread_count 0 to 1 and parallelism 0 to the
normalized thread_count, so the stored options always satisfy
thread_count ≥ 1 and parallelism ≥ 1. -/
theorem C9_normalize_nonzero (opts : Options) :
    1 ≤ (normalize opts).thread_count ∧
    1 ≤ (normalize opts).parallelism ∧
    (normalize opts).thread_count =
      (if opts.thread_count = 0 then 1 else opts.thread_count) ∧
    (normalize opts).parallelism =
      (if opts.parallelism = 0 then
        (if opts.thread_count = 0 then 1 else opts.thread_count)
       else opts.parallelism) := by
  by_cases h1 : opts.thread_count = 0 <;> by_cases h2 : opts.parallelism = 0 <;>
    simp [normalize, h1, h2] <;> omega

/-- Count of x in l ++ [t]. -/
theorem count_append_singleton (l : List Nat) (t x : Nat) :
    (l ++ [t]).count x = l.count x + (if x = t then 1 else 0) := by
  by_cases hx : x = t
  · subst hx; simp
  · simp [List.count_append, hx]

/-- Count of x in l.erase t when t is a member. -/
theorem count_erase_of_mem (a : List Nat) (t x : Nat) (h : t ∈ a) :
    (a.erase t).count x + (if x = t then 1 else 0) = a.count x := by
  have h2 := List.count_erase x t a
  by_cases hx : x = t
  · subst hx
    have h1 : 0 < a.count x := List.count_pos_iff.2 h
    simp at h2 ⊢
    omega
  · have hbe : (t == x) = false := by simp [Ne.symm hx]
    rw [hbe] at h2
    simp at h2
    simp [hx, h2]

/-- Length of l.erase t when t is a member. -/
theorem length_erase_add_one (a : List Nat) (t : Nat) (h : t ∈ a) :
    (a.erase t).length + 1 = a.length := by
  rw [List.length_erase_of_mem h]
  have := List.length_pos_of_mem h
  omega

/-- The invariant holds in the freshly constructed pool. -/
theorem WPInv_init (opts : Options) : WPInv opts (initWP opts) := by
  refine ⟨rfl, ?_, ?_, ?_, rfl, ?_, ?_⟩ <;> simp [initWP]

/-- The invariant is preserved by every atomic step. -/
theorem WPInv_step {opts : Options} {s s' : WPState}
    (inv : WPInv opts s) (st : WPStep opts s s') : WPInv opts s' := by
  cases st with
  | enqueue t h1 h2 h3 =>
    have hd : s.dropped = [] := by
      by_contra hne
      have := (inv.drop_stop hne).1
      rw [h1] at this
      exact Bool.false_ne_true this
    refine ⟨?_, ?_, inv.deq_cnt, inv.comp_cnt, inv.active_eq, inv.permits_eq, ?_⟩
    · show s.accepted ++ [t] = s.dequeued ++ (s.queue_ ++ [t]) ++ s.dropped
      rw [inv.acc_eq, hd]
      simp
    · show (s.accepted ++ [t]).Nodup
      simp [List.nodup_append, inv.acc_nodup, h2]
    · intro hne
      exact absurd hd hne
  | dequeue t rest h =>
    refine ⟨?_, inv.acc_nodup, ?_, inv.comp_cnt, inv.active_eq, inv.permits_eq,
      inv.drop_stop⟩
    · show s.accepted = (s.dequeued ++ [t]) ++ rest ++ s.dropped
      rw [inv.acc_eq, h]
      simp
    · intro x
      have hc := inv.deq_cnt x
      have e1 := count_append_singleton s.dequeued t x
      have e2 := count_append_singleton s.waiting t x
      show (s.dequeued ++ [t]).count x = (s.waiting ++ [t]).count x +
        s.preActive.count x + s.execing.count x + s.completed.count x
      omega
  | acquirePermit t h1 h2 =>
    refine ⟨inv.acc_eq, inv.acc_nodup, ?_, inv.comp_cnt, inv.active_eq, ?_,
      inv.drop_stop⟩
    · intro x
      have hc := inv.deq_cnt x
      have e1 := count_erase_of_mem s.waiting t x h1
      have e2 := count_append_singleton s.preActive t x
      show s.dequeued.count x = (s.waiting.erase t).count x +
        (s.preActive ++ [t]).count x + s.execing.count x + s.completed.count x
      omega
    · have hp := inv.permits_eq
      show s.permits - 1 + (s.preActive ++ [t]).length + s.execing.length +
        s.ranPendingDec.length + s.pendingRel.length = opts.parallelism
      simp only [List.length_append, List.length_singleton]
      omega
  | incActive t h =>
    refine ⟨inv.acc_eq, inv.acc_nodup, ?_, inv.comp_cnt, ?_, ?_, inv.drop_stop⟩
    · intro x
      have hc := inv.deq_cnt x
      have e1 := count_erase_of_mem s.preActive t x h
      have e2 := count_append_singleton s.execing t x
      show s.dequeued.count x = s.waiting.count x +
        (s.preActive.erase t).count x + (s.execing ++ [t]).count x +
        s.completed.count x
      omega
    · have ha := inv.active_eq
      show s.active_ + 1 = (s.execing ++ [t]).length + s.ranPendingDec.length
      simp only [List.length_append, List.length_singleton]
      omega
    · have hp := inv.permits_eq
      have e1 := length_erase_add_one s.preActive t h
      show s.permits + (s.preActive.erase t).length + (s.execing ++ [t]).length +
        s.ranPendingDec.length + s.pendingRel.length = opts.parallelism
      simp only [List.length_append, List.length_singleton]
      omega
  | finishTask t h =>
    refine ⟨inv.acc_eq, inv.acc_nodup, ?_, ?_, ?_, ?_, inv.drop_stop⟩
    · intro x
      have hc := inv.deq_cnt x
      have e1 := count_erase_of_mem s.execing t x h
      have e2 := count_append_singleton s.completed t x
      show s.dequeued.count x = s.waiting.count x + s.preActive.count x +
        (s.execing.erase t).count x + (s.completed ++ [t]).count x
      omega
    · intro x
      have hc := inv.comp_cnt x
      have e1 := count_append_singleton s.completed t x
      have e2 := count_append_singleton s.ranPendingDec t x
      show (s.completed ++ [t]).count x = (s.ranPendingDec ++ [t]).count x +
        s.pendingRel.count x + s.retired.count x
      omega
    · have ha := inv.active_eq
      have e1 := length_erase_add_one s.execing t h
      show s.active_ = (s.execing.erase t).length + (s.ranPendingDec ++ [t]).length
      simp only [List.length_append, List.length_singleton]
      omega
    · have hp := inv.permits_eq
      have e1 := length_erase_add_one s.execing t h
      show s.permits + s.preActive.length + (s.execing.erase t).length +
        (s.ranPendingDec ++ [t]).length + s.pendingRel.length = opts.parallelism
      simp only [List.length_append, List.length_singleton]
      omega
  | decActive t h =>
    refine ⟨inv.acc_eq, inv.acc_nodup, inv.deq_cnt, ?_, ?_, ?_, inv.drop_stop⟩
    · intro x
      have hc := inv.comp_cnt x
      have e1 := count_erase_of_mem s.ranPendingDec t x h
      have e2 := count_append_singleton s.pendingRel t x
      show s.completed.count x = (s.ranPendingDec.erase t).count x +
        (s.pendingRel ++ [t]).count x + s.retired.count x
      omega
    · have ha := inv.active_eq
      have e1 := length_erase_add_one s.ranPendingDec t h
      show s.active_ - 1 = s.execing.length + (s.ranPendingDec.erase t).length
      omega
    · have hp := inv.permits_eq
      have e1 := length_erase_add_one s.ranPendingDec t h
      show s.permits + s.preActive.length + s.execing.length +
        (s.ranPendingDec.erase t).length + (s.pendingRel ++ [t]).length =
        opts.parallelism
      simp only [List.length_append, List.length_singleton]
      omega
  | releasePermit t h =>
    refine ⟨inv.acc_eq, inv.acc_nodup, inv.deq_cnt, ?_, inv.active_eq, ?_,
      inv.drop_stop⟩
    · intro x
      have hc := inv.comp_cnt x
      have e1 := count_erase_of_mem s.pendingRel t x h
      have e2 := count_append_singleton s.retired t x
      show s.completed.count x = s.ranPendingDec.count x +
        (s.pendingRel.erase t).count x + (s.retired ++ [t]).count x
      omega
    · have hp := inv.permits_eq
      have e1 := length_erase_add_one s.pendingRel t h
      show s.permits + 1 + s.preActive.length + s.execing.length +
        s.ranPendingDec.length + (s.pendingRel.erase t).length = opts.parallelism
      omega
  | shutdownStep drain h =>
    have hd : s.dropped = [] := by
      by_contra hne
      have := (inv.drop_stop hne).1
      rw [h] at this
      exact Bool.false_ne_true this
    refine ⟨?_, inv.acc_nodup, inv.deq_cnt, inv.comp_cnt, inv.active_eq,
      inv.permits_eq, ?_⟩
    · show s.accepted = s.dequeued ++ (if drain then s.queue_ else []) ++
        (if drain then s.dropped else s.dropped ++ s.queue_)
      cases drain
      · rw [inv.acc_eq, hd]
        simp
      · rw [inv.acc_eq]
        simp
    · intro hne
      cases drain
      · exact ⟨rfl, rfl⟩
      · exact absurd hd (by simpa using hne)

/-- Every reachable WorkerPool state satisfies the invariant. -/
theorem WPInv_reach {opts : Options} {s : WPState} (h : WPReach opts s) :
    WPInv opts s := by
  induction h with
  | init => exact WPInv_init opts
  | step _ st ih => exact WPInv_step ih st

/-- The concrete state sW is reachable under opts0: accept 10 and 11,
dequeue 10, run it to completion, then shutdown(drain = false), which
drops 11. -/
theorem reach_sW : WPReach opts0 sW := by
  have h0 : WPReach opts0 (initWP opts0) := WPReach.init
  have h1 : WPReach opts0
      ⟨[10], [], [], [], [], [], [], [10], [], [], [], 1, 0, false, true⟩ :=
    WPReach.step h0 (WPStep.enqueue _ 10 rfl (by decide) (Or.inl rfl))
  have h2 : WPReach opts0
      ⟨[10, 11], [], [], [], [], [], [], [10, 11], [], [], [], 1, 0, false, true⟩ :=
    WPReach.step h1 (WPStep.enqueue _ 11 rfl (by decide) (Or.inl rfl))
  have h3 : WPReach opts0
      ⟨[11], [10], [], [], [], [], [], [10, 11], [10], [], [], 1, 0, false, true⟩ :=
    WPReach.step h2 (WPStep.dequeue _ 10 [11] rfl)
  have h4 : WPReach opts0
      ⟨[11], [], [10], [], [], [], [], [10, 11], [10], [], [], 0, 0, false, true⟩ :=
    WPReach.step h3 (WPStep.acquirePermit _ 10 (by decide) (by decide))
  have h5 : WPReach opts0
      ⟨[11], [], [], [10], [], [], [], [10, 11], [10], [], [], 0, 1, false, true⟩ :=
    WPReach.step h4 (WPStep.incActive _ 10 (by decide))
  have h6 : WPReach opts0
      ⟨[11], [], [], [], [10], [], [], [10, 11], [10], [10], [], 0, 1, false, true⟩ :=
    WPReach.step h5 (WPStep.finishTask _ 10 (by decide))
  exact WPReach.step h6 (WPStep.shutdownStep _ false rfl)

/-- C1: in every reachable WorkerPool state, every accepted task has run
to completion at most once; it sits in exactly one place among the queue,
the in-flight phases, the completed log and the dropped set; a dropped
task was never dequeued and never ran, and dropping only happens through
shutdown(drain = false); and a task currently executing can always take
the step that completes its invocation (tasks already dequeued at
shutdown still run to completion). -/
theorem C1_exactly_once_or_dropped (opts : Options) (s : WPState) (t : Nat)
    (h : WPReach opts s) (ht : t ∈ s.accepted) :
    s.completed.count t ≤ 1 ∧
    s.queue_.count t + s.waiting.count t + s.preActive.count t +
      s.execing.count t + s.completed.count t + s.dropped.count t = 1 ∧
    (t ∈ s.dropped → t ∉ s.completed ∧ t ∉ s.dequeued ∧
      s.is_stopping_ = true ∧ s.drain_on_shutdown_ = false) ∧
    (t ∈ s.execing →
      WPStep opts s { s with execing := s.execing.erase t,
                             ranPendingDec := s.ranPendingDec ++ [t],
                             completed := s.completed ++ [t] } ∧
      t ∈ s.completed ++ [t]) := by
  have inv := WPInv_reach h
  have hacc : s.accepted.count t = 1 := List.count_eq_one_of_mem inv.acc_nodup ht
  have hsplit : s.dequeued.count t + s.queue_.count t + s.dropped.count t = 1 := by
    rw [inv.acc_eq] at hacc
    simp [List.count_append] at hacc
    omega
  have hdeq := inv.deq_cnt t
  refine ⟨by omega, by omega, ?_, ?_⟩
  · intro hdrop
    have h1 : 0 < s.dropped.count t := List.count_pos_iff.2 hdrop
    have hcz : s.completed.count t = 0 := by omega
    have hdz : s.dequeued.count t = 0 := by omega
    refine ⟨List.count_eq_zero.1 hcz, List.count_eq_zero.1 hdz, ?_⟩
    exact inv.drop_stop (List.ne_nil_of_mem hdrop)
  · intro hexec
    exact ⟨WPStep.finishTask s t hexec, by simp⟩

/-- Witness for C1 at the reachable state sW with accepted task 10. -/
theorem C1_exactly_once_or_dropped_witness :
    sW.completed.count 10 ≤ 1 ∧
    sW.queue_.count 10 + sW.waiting.count 10 + sW.preActive.count 10 +
      sW.execing.count 10 + sW.completed.count 10 + sW.dropped.count 10 = 1 ∧
    (10 ∈ sW.dropped → 10 ∉ sW.completed ∧ 10 ∉ sW.dequeued ∧
      sW.is_stopping_ = true ∧ sW.drain_on_shutdown_ = false) ∧
    (10 ∈ sW.execing →
      WPStep opts0 sW { sW with execing := sW.execing.erase 10,
                                ranPendingDec := sW.ranPendingDec ++ [10],
                                completed := sW.completed ++ [10] } ∧
      10 ∈ sW.completed ++ [10]) :=
  C1_exactly_once_or_dropped opts0 sW 10 reach_sW (by decide)

/-- C5: the work queue is strict FIFO between enqueue (push_back) and
dequeue (pop_front): in every reachable state the dequeue order is an
initial segment of the acceptance order (what follows it is exactly the
still-queued and the dropped tasks, in order), and the same holds for the
subsequence of tasks matching any predicate, in particular for the tasks
submitted by any single thread. -/
theorem C5_fifo_dequeue_order (opts : Options) (s : WPState) (p : Nat → Bool)
    (h : WPReach opts s) :
    s.accepted = s.dequeued ++ (s.queue_ ++ s.dropped) ∧
    s.accepted.filter p =
      s.dequeued.filter p ++ (s.queue_ ++ s.dropped).filter p := by
  have inv := WPInv_reach h
  constructor
  · rw [inv.acc_eq, List.append_assoc]
  · rw [inv.acc_eq]
    simp [List.filter_append]

/-- Witness for C5 at the reachable state sW. -/
theorem C5_fifo_dequeue_order_witness :
    sW.accepted = sW.dequeued ++ (sW.queue_ ++ sW.dropped) ∧
    sW.accepted.filter (fun t => decide (t % 2 = 0)) =
      sW.dequeued.filter (fun t => decide (t % 2 = 0)) ++
      (sW.queue_ ++ sW.dropped).filter (fun t => decide (t % 2 = 0)) :=
  C5_fifo_dequeue_order opts0 sW (fun t => decide (t % 2 = 0)) reach_sW

/-- C6: in every reachable state of a WorkerPool with parallelism P the
number of simultaneously executing user tasks satisfies
0 ≤ active_ ≤ P: active_ is incremented only between the semaphore
acquire and the task body and decremented before the release, so it never
exceeds the permit count P. -/
theorem C6_active_le_parallelism (opts : Options) (s : WPState)
    (h : WPReach opts s) :
    s.active_ ≤ opts.parallelism ∧ 0 ≤ s.active_ ∧
    s.active_ = s.execing.length + s.ranPendingDec.length := by
  have inv := WPInv_reach h
  have h1 := inv.active_eq
  have h2 := inv.permits_eq
  exact ⟨by omega, Nat.zero_le _, h1⟩

/-- Witness for C6 at the reachable state sW (one task holding the single
permit, still counted active before its fetch_sub). -/
theorem C6_active_le_parallelism_witness :
    sW.active_ ≤ opts0.parallelism ∧ 0 ≤ sW.active_ ∧
    sW.active_ = sW.execing.length + sW.ranPendingDec.length :=
  C6_active_le_parallelism opts0 sW reach_sW

end worker
